import Mathlib

/-!
Verification development for the Primal Tap Challenge page
(`src/app/page.tsx`): a shallow embedding of the timed spawn/despawn game
loop, the round timer, the bonus scheduler, the score accumulator, the
profile-sync write path (`saveScore`), and the auth-state handler.

Timers are modelled by their pending/cancelled status: `setTimeout` /
`setInterval` make a timer pending, `clearTimeout` / `clearInterval`
cancel it, and a timer callback can only run (as an event) while its
timer is pending.  Positions are rationals; the values produced by
`Math.random()` enter as event parameters in `[0, 1)`.
-/

namespace PrimalTap

def GAME_DURATION : ℤ := 30

def BONUS_ICON_TIMEOUT : ℚ := 1000

def BONUS_POINTS : ℤ := 5

/-- The `gameState` values of `page.tsx`. -/
inductive GState
  | auth
  | idle
  | playing
  | gameOver
deriving DecidableEq, Repr

/-- Client-side game state: the React state hooks plus the pending status
of each timer ref (`timerIntervalRef`, `gameLoopTimeoutRef`,
`iconTimeoutRef`, `bonusIconTimeoutRef`) and the number of pending
one-shot bonus schedule timers (`bonusScheduleTimeoutsRef`). -/
structure GameSt where
  gameState : GState
  score : ℤ
  timeLeft : ℤ
  iconTop : ℚ
  iconLeft : ℚ
  iconVisible : Bool
  bonusTop : ℚ
  bonusLeft : ℚ
  bonusVisible : Bool
  timerInterval : Bool
  gameLoopTimeout : Bool
  iconTimeout : Bool
  bonusIconTimeout : Bool
  bonusScheduleCount : Nat
deriving DecidableEq, Repr

/-- `stopGame`: cancels the round interval, the spawn delay, both
visibility timeouts and every pending bonus schedule timer, then hides
both targets. -/
def stopGame (s : GameSt) : GameSt :=
  { s with
    timerInterval := false
    iconTimeout := false
    gameLoopTimeout := false
    bonusIconTimeout := false
    bonusScheduleCount := 0
    iconVisible := false
    bonusVisible := false }

/-- `showNextIcon`: clears any pending spawn-delay timer and starts a new
one (the spawn itself happens later, when that timer fires). -/
def showNextIcon (s : GameSt) : GameSt :=
  { s with gameLoopTimeout := true }

/-- `scheduleBonusIcons`: clears all previously scheduled bonus one-shots
and schedules four new ones. -/
def scheduleBonusIcons (s : GameSt) : GameSt :=
  { s with bonusScheduleCount := 4 }

/-- Body of the game-loop effect when `gameState` is `'playing'`:
reset the clock and score, kick off the spawn loop and the bonus
schedule, and start the one-second interval.  The effect cleanup
(`stopGame`) has already run before the body. -/
def armRound (s : GameSt) : GameSt :=
  let s := stopGame s
  let s := { s with timeLeft := GAME_DURATION, score := 0 }
  let s := showNextIcon s
  let s := scheduleBonusIcons s
  { s with timerInterval := true }

/-- `setGameState` together with the game-loop effect that reacts to it:
no change re-runs nothing; entering `'playing'` arms the round; entering
any other state runs `stopGame`. -/
def setGameState (s : GameSt) (g : GState) : GameSt :=
  if g = s.gameState then s
  else if g = GState.playing then armRound { s with gameState := g }
  else stopGame { s with gameState := g }

/-- Callback of the one-second interval: on each tick, if the previous
time is at most 1 the state becomes `'gameOver'` (the effect then runs
`stopGame`) and the clock is clamped to 0; otherwise the clock drops by
one.  It can only run while the interval is pending. -/
def tickStep (s : GameSt) : GameSt :=
  if s.timerInterval then
    if s.timeLeft ≤ 1 then setGameState { s with timeLeft := 0 } GState.gameOver
    else { s with timeLeft := s.timeLeft - 1 }
  else s

/-- Callback of the spawn-delay timer (`gameLoopTimeoutRef`): place the
primary icon at `(Math.random() * (h - 80), Math.random() * (w - 80))`,
show it, and start the visibility timeout.  Runs only while that timer
is pending; the play area is rendered while playing, so
`gameAreaRef.current` is available. -/
def spawnFireStep (w h : ℚ) (s : GameSt) (r1 r2 : ℚ) : GameSt :=
  if s.gameLoopTimeout then
    { s with
      gameLoopTimeout := false
      iconTop := r1 * (h - 80)
      iconLeft := r2 * (w - 80)
      iconVisible := true
      iconTimeout := true }
  else s

/-- Callback of the primary icon's visibility timeout: hide the icon and
restart the spawn loop.  Runs only while that timeout is pending. -/
def iconTimeoutFireStep (s : GameSt) : GameSt :=
  if s.iconTimeout then
    showNextIcon { s with iconTimeout := false, iconVisible := false }
  else s

/-- `handleIconClick`: early-return unless the icon is visible and the
game is playing; otherwise add 1 to the score, cancel the visibility
timeout, hide the icon, cancel the pending spawn delay and restart the
spawn loop. -/
def handleIconClick (s : GameSt) : GameSt :=
  if s.iconVisible = false ∨ s.gameState ≠ GState.playing then s
  else
    showNextIcon
      { s with score := s.score + 1, iconTimeout := false, iconVisible := false }

/-- Callback of one bonus schedule one-shot (`showBonusIcon`): that
one-shot is no longer pending; place the bonus icon at
`(Math.random() * (h - 100), Math.random() * (w - 100))`, show it, and
restart the bonus visibility timeout. -/
def bonusSpawnFireStep (w h : ℚ) (s : GameSt) (r1 r2 : ℚ) : GameSt :=
  if s.bonusScheduleCount ≠ 0 then
    { s with
      bonusScheduleCount := s.bonusScheduleCount - 1
      bonusTop := r1 * (h - 100)
      bonusLeft := r2 * (w - 100)
      bonusVisible := true
      bonusIconTimeout := true }
  else s

/-- Callback of the bonus icon's visibility timeout: hide the bonus icon.
No respawn is started.  Runs only while that timeout is pending. -/
def bonusTimeoutFireStep (s : GameSt) : GameSt :=
  if s.bonusIconTimeout then
    { s with bonusIconTimeout := false, bonusVisible := false }
  else s

/-- `handleBonusIconClick`: early-return unless the bonus icon is visible
and the game is playing; otherwise add `BONUS_POINTS` to the score,
cancel the bonus visibility timeout and hide the bonus icon. -/
def handleBonusIconClick (s : GameSt) : GameSt :=
  if s.bonusVisible = false ∨ s.gameState ≠ GState.playing then s
  else
    { s with
      score := s.score + BONUS_POINTS
      bonusIconTimeout := false
      bonusVisible := false }

/-- Events of the client game loop: user-driven transitions, user taps,
and the firing of each timer lineage.  The rational parameters are the
`Math.random()` draws used for placement. -/
inductive GEvent
  | startPlaying
  | signOut
  | tick
  | spawnFire (r1 r2 : ℚ)
  | iconTimeoutFire
  | iconClick
  | bonusSpawnFire (r1 r2 : ℚ)
  | bonusTimeoutFire
  | bonusClick
deriving DecidableEq, Repr

/-- One step of the game loop, parameterised by the play-area width and
height. -/
def step (w h : ℚ) (s : GameSt) : GEvent → GameSt
  | GEvent.startPlaying => setGameState s GState.playing
  | GEvent.signOut => setGameState s GState.auth
  | GEvent.tick => tickStep s
  | GEvent.spawnFire r1 r2 => spawnFireStep w h s r1 r2
  | GEvent.iconTimeoutFire => iconTimeoutFireStep s
  | GEvent.iconClick => handleIconClick s
  | GEvent.bonusSpawnFire r1 r2 => bonusSpawnFireStep w h s r1 r2
  | GEvent.bonusTimeoutFire => bonusTimeoutFireStep s
  | GEvent.bonusClick => handleBonusIconClick s

/-- Number of outstanding timers across the spawn scheduler, the bonus
scheduler and the round timer. -/
def pendingTimerCount (s : GameSt) : Nat :=
  (if s.timerInterval then 1 else 0) + (if s.gameLoopTimeout then 1 else 0) +
    (if s.iconTimeout then 1 else 0) + (if s.bonusIconTimeout then 1 else 0) +
    s.bonusScheduleCount

/-- Timer-callback events, as opposed to user-driven events. -/
def isTimerFire : GEvent → Bool
  | GEvent.tick => true
  | GEvent.spawnFire _ _ => true
  | GEvent.iconTimeoutFire => true
  | GEvent.bonusSpawnFire _ _ => true
  | GEvent.bonusTimeoutFire => true
  | _ => false

/-- Running a list of events. -/
def run (w h : ℚ) (s : GameSt) (es : List GEvent) : GameSt :=
  es.foldl (step w h) s

/-- True when the event is an `iconClick` that passes `handleIconClick`'s
guard in state `s` (a primary tap that is accepted). -/
def acceptsPrimary (s : GameSt) : GEvent → Bool
  | GEvent.iconClick => s.iconVisible && s.gameState == GState.playing
  | _ => false

/-- True when the event is a `bonusClick` that passes
`handleBonusIconClick`'s guard in state `s` (a bonus tap that is
accepted). -/
def acceptsBonus (s : GameSt) : GEvent → Bool
  | GEvent.bonusClick => s.bonusVisible && s.gameState == GState.playing
  | _ => false

/-- Number of accepted primary taps along a run. -/
def primaryTaps (w h : ℚ) (s : GameSt) : List GEvent → Nat
  | [] => 0
  | e :: es =>
    (if acceptsPrimary s e then 1 else 0) + primaryTaps w h (step w h s e) es

/-- Number of accepted bonus taps along a run. -/
def bonusTaps (w h : ℚ) (s : GameSt) : List GEvent → Nat
  | [] => 0
  | e :: es =>
    (if acceptsBonus s e then 1 else 0) + bonusTaps w h (step w h s e) es

/-- True on the tick that signals round end: the interval is pending, the
game is playing, and the decrement would take the clock to or below 0. -/
def signalsRoundEnd (s : GameSt) : GEvent → Bool
  | GEvent.tick =>
    s.timerInterval && s.gameState == GState.playing && decide (s.timeLeft ≤ 1)
  | _ => false

/-- Number of round-end signals along a run. -/
def roundEndSignals (w h : ℚ) (s : GameSt) : List GEvent → Nat
  | [] => 0
  | e :: es =>
    (if signalsRoundEnd s e then 1 else 0) + roundEndSignals w h (step w h s e) es

/-- The four bonus one-shot spawn offsets produced by
`scheduleBonusIcons`: `schedule(base, 2000)` sets a timer at
`base + Math.random() * 2000` ms, for bases 5000, 11000, 18000, 25000.
The jitters are the four independent `Math.random() * 2000` draws. -/
def bonusSpawnOffsets (j1 j2 j3 j4 : ℚ) : List ℚ :=
  [5000 + j1, 11000 + j2, 18000 + j3, 25000 + j4]

/-- The Firestore user document shape. -/
structure UserProfile where
  firstName : String
  email : String
  bestScore : ℤ
  scores : List ℤ
  emailMarketingOptIn : Bool
deriving DecidableEq, Repr

/-- The profile created at signup (`newUserProfile`). -/
def initialProfile (name mail : String) : UserProfile :=
  { firstName := name
    email := mail
    bestScore := 0
    scores := []
    emailMarketingOptIn := false }

/-- `saveScore`, the `recordRoundResult` write path: first
`updateDoc({scores: arrayUnion(score)})` — Firestore's `arrayUnion` adds
the element only when it is not already present, otherwise it leaves the
array unchanged — then, when `score > bestScore`, a second
`updateDoc({bestScore: score})`. -/
def recordRoundResult (p : UserProfile) (score : ℤ) : UserProfile :=
  let p1 :=
    { p with
      scores := if score ∈ p.scores then p.scores else p.scores ++ [score] }
  if score > p.bestScore then { p1 with bestScore := score } else p1

/-- A sequence of completed rounds, persisted in order. -/
def recordAll (p : UserProfile) (ss : List ℤ) : UserProfile :=
  ss.foldl recordRoundResult p

/-- One `arrayUnion` step on the stored array: append the value only
when it is not already present. -/
def unionAppend (acc : List ℤ) (x : ℤ) : List ℤ :=
  if x ∈ acc then acc else acc ++ [x]

/-- The distinct values of a list in order of first occurrence — the
sequence a repeated `arrayUnion` leaves behind. -/
def firstOccurrences (ss : List ℤ) : List ℤ :=
  ss.foldl unionAppend []

/-- Client auth-session state: `currentUser`, `userProfile`, `gameState`,
and whether the missing-profile "Account Error" toast has been shown. -/
structure AuthSt where
  currentUser : Option String
  userProfile : Option UserProfile
  gameState : GState
  accountErrorShown : Bool
deriving DecidableEq, Repr

/-- One run of the `onAuthStateChanged` handler body on an observed
identity (`some uid`, or `none` when signed out), against a profile
store.  Returns the new state and whether the handler called
`signOut` (the missing-profile branch).  The missing-profile branch
shows the toast and signs out without touching `currentUser`,
`userProfile` or `gameState`. -/
def onAuthChangedHandler (store : String → Option UserProfile) (st : AuthSt) :
    Option String → AuthSt × Bool
  | some uid =>
    match store uid with
    | some prof =>
      ({ st with
          currentUser := some uid
          userProfile := some prof
          gameState := GState.idle },
        false)
    | none => ({ st with accountErrorShown := true }, true)
  | none =>
    ({ st with
        currentUser := none
        userProfile := none
        gameState := GState.auth },
      false)

/-- Processing one auth event to quiescence: run the handler; when it
called `signOut`, the auth subscription fires again with no user, and the
handler runs once more on that. -/
def processAuthEvent (store : String → Option UserProfile) (st : AuthSt)
    (user : Option String) : AuthSt :=
  let r := onAuthChangedHandler store st user
  if r.2 then (onAuthChangedHandler store r.1 none).1 else r.1

/-- The initial React state of the page: `gameState 'auth'`, score 0,
clock at `GAME_DURATION`, both icons hidden at (50, 50), no timer
pending. -/
def initialGameSt : GameSt :=
  { gameState := GState.auth
    score := 0
    timeLeft := GAME_DURATION
    iconTop := 50
    iconLeft := 50
    iconVisible := false
    bonusTop := 50
    bonusLeft := 50
    bonusVisible := false
    timerInterval := false
    gameLoopTimeout := false
    iconTimeout := false
    bonusIconTimeout := false
    bonusScheduleCount := 0 }

/-- A freshly armed round. -/
def playingState : GameSt := setGameState initialGameSt GState.playing

/-- A playing state in which a bonus one-shot has just fired, so the
bonus icon is visible with its visibility timeout pending. -/
def bonusLiveState : GameSt :=
  step 400 400 playingState (GEvent.bonusSpawnFire 0 0)

/-- The initial auth-session state of the page. -/
def initialAuthSt : AuthSt :=
  { currentUser := none
    userProfile := none
    gameState := GState.auth
    accountErrorShown := false }

/-- Claim C7: `stopGame` is idempotent — running the disarm path twice in
immediate succession from any state gives the same result as running it
once (and, being a total function, it cannot throw), and one run already
leaves zero outstanding timers and both targets hidden. -/
theorem stopGame_idempotent (s : GameSt) :
    stopGame (stopGame s) = stopGame s ∧
      pendingTimerCount (stopGame s) = 0 ∧
      (stopGame s).iconVisible = false ∧ (stopGame s).bonusVisible = false := by
  refine ⟨rfl, ?_, rfl, rfl⟩
  simp [stopGame, pendingTimerCount]

/-- Claim C10: a call to `handleIconClick` or `handleBonusIconClick`
whose target is not visible or which arrives outside the playing state
(including after the round has ended) is a no-op: the state — score,
both targets' visibility and positions, and all timer handles — is
returned unchanged. -/
theorem click_outside_round_noop (s : GameSt) :
    (s.iconVisible = false ∨ s.gameState ≠ GState.playing →
        handleIconClick s = s) ∧
      (s.bonusVisible = false ∨ s.gameState ≠ GState.playing →
        handleBonusIconClick s = s) := by
  constructor
  · intro hcount
    rw [handleIconClick, if_pos hcount]
  · intro hcount
    rw [handleBonusIconClick, if_pos hcount]

/-- Witness for claim C10 at the game-over state reached by a full
countdown. -/
theorem click_outside_round_noop_wit :
    (handleIconClick (run 400 400 playingState (List.replicate 30 GEvent.tick))
        = run 400 400 playingState (List.replicate 30 GEvent.tick)) ∧
      (handleBonusIconClick (run 400 400 playingState (List.replicate 30 GEvent.tick))
        = run 400 400 playingState (List.replicate 30 GEvent.tick)) := by
  have h := click_outside_round_noop
    (run 400 400 playingState (List.replicate 30 GEvent.tick))
  exact ⟨h.1 (by decide), h.2 (by decide)⟩

/-- Claim C8: whenever the spawn-delay timer fires and places the primary
target, if the play area is at least 80 px in each dimension then the
chosen `(top, left)` satisfies `0 ≤ top ≤ height - 80` and
`0 ≤ left ≤ width - 80`, keeping the 80 px footprint inside the play
area (the `Math.random()` draws lie in `[0, 1)`). -/
theorem spawn_position_in_bounds (w h r1 r2 : ℚ) (s : GameSt)
    (hw : 80 ≤ w) (hh : 80 ≤ h)
    (hr1 : 0 ≤ r1) (hr1' : r1 < 1) (hr2 : 0 ≤ r2) (hr2' : r2 < 1)
    (hpend : s.gameLoopTimeout = true) :
    0 ≤ (spawnFireStep w h s r1 r2).iconTop ∧
      (spawnFireStep w h s r1 r2).iconTop ≤ h - 80 ∧
      0 ≤ (spawnFireStep w h s r1 r2).iconLeft ∧
      (spawnFireStep w h s r1 r2).iconLeft ≤ w - 80 := by
  rw [spawnFireStep, if_pos hpend]
  dsimp only
  refine ⟨mul_nonneg hr1 (by linarith), ?_, mul_nonneg hr2 (by linarith), ?_⟩
  · nlinarith [mul_nonneg (by linarith : (0:ℚ) ≤ 1 - r1) (by linarith : (0:ℚ) ≤ h - 80)]
  · nlinarith [mul_nonneg (by linarith : (0:ℚ) ≤ 1 - r2) (by linarith : (0:ℚ) ≤ w - 80)]

/-- Witness for claim C8 on a 400 × 300 play area with draws 1/2 and
1/4. -/
theorem spawn_position_in_bounds_wit :
    0 ≤ (spawnFireStep 400 300 (showNextIcon initialGameSt) (1/2) (1/4)).iconTop ∧
      (spawnFireStep 400 300 (showNextIcon initialGameSt) (1/2) (1/4)).iconTop ≤ 300 - 80 ∧
      0 ≤ (spawnFireStep 400 300 (showNextIcon initialGameSt) (1/2) (1/4)).iconLeft ∧
      (spawnFireStep 400 300 (showNextIcon initialGameSt) (1/2) (1/4)).iconLeft ≤ 400 - 80 :=
  spawn_position_in_bounds 400 300 (1/2) (1/4) (showNextIcon initialGameSt)
    (by norm_num) (by norm_num) (by norm_num) (by norm_num) (by norm_num)
    (by norm_num) rfl

/-- Claim C5: for every draw of the four independent jitters in
`[0, 2000]` ms, the four bonus spawn offsets (bases 5000, 11000, 18000,
25000 ms) are strictly increasing and pairwise distinct, and each offset
— even extended by the 1000 ms visible duration — stays within the
30-second round. -/
theorem bonus_offsets_distinct_within_round (j1 j2 j3 j4 : ℚ)
    (_h1 : 0 ≤ j1) (h1' : j1 ≤ 2000) (h2 : 0 ≤ j2) (h2' : j2 ≤ 2000)
    (h3 : 0 ≤ j3) (h3' : j3 ≤ 2000) (h4 : 0 ≤ j4) (h4' : j4 ≤ 2000) :
    List.Pairwise (· < ·) (bonusSpawnOffsets j1 j2 j3 j4) ∧
      List.Pairwise (· ≠ ·) (bonusSpawnOffsets j1 j2 j3 j4) ∧
      ∀ x ∈ bonusSpawnOffsets j1 j2 j3 j4,
        x ≤ (GAME_DURATION : ℚ) * 1000 ∧
          x + BONUS_ICON_TIMEOUT ≤ (GAME_DURATION : ℚ) * 1000 := by
  have hlt : List.Pairwise (· < ·) (bonusSpawnOffsets j1 j2 j3 j4) := by
    simp only [bonusSpawnOffsets, List.pairwise_cons, List.mem_cons,
      List.not_mem_nil, List.mem_singleton, or_false]
    refine ⟨?_, ?_, ?_, fun a ha => ha.elim, List.Pairwise.nil⟩
    · rintro a (rfl | rfl | rfl) <;> linarith
    · rintro a (rfl | rfl) <;> linarith
    · rintro a rfl; linarith
  refine ⟨hlt, hlt.imp ne_of_lt, ?_⟩
  intro x hx
  simp only [bonusSpawnOffsets, List.mem_cons, List.not_mem_nil, or_false,
    List.mem_singleton] at hx
  rw [GAME_DURATION, BONUS_ICON_TIMEOUT]
  rcases hx with hx | hx | hx | hx <;> subst hx <;> constructor <;> norm_num <;> linarith

/-- Witness for claim C5 at jitters 0, 500, 1000, 2000. -/
theorem bonus_offsets_distinct_within_round_wit :
    List.Pairwise (· < ·) (bonusSpawnOffsets 0 500 1000 2000) ∧
      List.Pairwise (· ≠ ·) (bonusSpawnOffsets 0 500 1000 2000) ∧
      ∀ x ∈ bonusSpawnOffsets 0 500 1000 2000,
        x ≤ (GAME_DURATION : ℚ) * 1000 ∧
          x + BONUS_ICON_TIMEOUT ≤ (GAME_DURATION : ℚ) * 1000 :=
  bonus_offsets_distinct_within_round 0 500 1000 2000
    (by norm_num) (by norm_num) (by norm_num) (by norm_num)
    (by norm_num) (by norm_num) (by norm_num) (by norm_num)

/-- Claim C6: while the game is playing and the bonus target is visible,
a tap adds exactly `BONUS_POINTS` (5) to the score, hides the bonus
target immediately and cancels its visibility timeout, touching nothing
else (in particular spawning nothing new); and when the visibility
timeout fires instead, the bonus target is hidden with the score and
everything else unchanged — neither outcome spawns a new bonus
target. -/
theorem bonus_tap_and_expiry (s t : GameSt)
    (hv : s.bonusVisible = true) (hp : s.gameState = GState.playing)
    (ht : t.bonusIconTimeout = true) :
    handleBonusIconClick s =
        { s with
          score := s.score + BONUS_POINTS
          bonusIconTimeout := false
          bonusVisible := false } ∧
      bonusTimeoutFireStep t =
        { t with bonusIconTimeout := false, bonusVisible := false } := by
  constructor
  · rw [handleBonusIconClick, if_neg]
    simp [hv, hp]
  · rw [bonusTimeoutFireStep, if_pos ht]

/-- Witness for claim C6 at a live bonus target during a round. -/
theorem bonus_tap_and_expiry_wit :
    handleBonusIconClick bonusLiveState =
        { bonusLiveState with
          score := bonusLiveState.score + BONUS_POINTS
          bonusIconTimeout := false
          bonusVisible := false } ∧
      bonusTimeoutFireStep bonusLiveState =
        { bonusLiveState with bonusIconTimeout := false, bonusVisible := false } :=
  bonus_tap_and_expiry bonusLiveState bonusLiveState (by decide) (by decide) (by decide)

/-- Claim C9: when the auth subscription observes an identity whose
profile document is missing from the store, the handler surfaces the
account-error message and signs the user out, so after the induced
sign-out callback the session ends unauthenticated with no current user
and no loaded profile; and after processing any auth event the session
is never authenticated without a loaded profile. -/
theorem auth_missing_profile_signs_out (store : String → Option UserProfile)
    (st : AuthSt) (uid : String) (ev : Option String)
    (hmiss : store uid = none) :
    (processAuthEvent store st (some uid)).currentUser = none ∧
      (processAuthEvent store st (some uid)).userProfile = none ∧
      (processAuthEvent store st (some uid)).gameState = GState.auth ∧
      (processAuthEvent store st (some uid)).accountErrorShown = true ∧
      ((processAuthEvent store st ev).currentUser.isSome →
        (processAuthEvent store st ev).userProfile.isSome) := by
  refine ⟨?_, ?_, ?_, ?_, ?_⟩
  · simp [processAuthEvent, onAuthChangedHandler, hmiss]
  · simp [processAuthEvent, onAuthChangedHandler, hmiss]
  · simp [processAuthEvent, onAuthChangedHandler, hmiss]
  · simp [processAuthEvent, onAuthChangedHandler, hmiss]
  · rcases ev with _ | uid'
    · simp [processAuthEvent, onAuthChangedHandler]
    · rcases hstore : store uid' with _ | prof <;>
        simp [processAuthEvent, onAuthChangedHandler, hstore]

/-- Witness for claim C9 against an empty profile store. -/
theorem auth_missing_profile_signs_out_wit :
    (processAuthEvent (fun _ => none) initialAuthSt (some "u1")).currentUser = none ∧
      (processAuthEvent (fun _ => none) initialAuthSt (some "u1")).userProfile = none ∧
      (processAuthEvent (fun _ => none) initialAuthSt (some "u1")).gameState = GState.auth ∧
      (processAuthEvent (fun _ => none) initialAuthSt (some "u1")).accountErrorShown = true ∧
      ((processAuthEvent (fun _ => none) initialAuthSt (some "u1")).currentUser.isSome →
        (processAuthEvent (fun _ => none) initialAuthSt (some "u1")).userProfile.isSome) :=
  auth_missing_profile_signs_out (fun _ => none) initialAuthSt "u1" (some "u1") rfl

lemma pendingTimerCount_stopGame (s : GameSt) :
    pendingTimerCount (stopGame s) = 0 := by
  simp [stopGame, pendingTimerCount]

lemma tickStep_no_interval (s : GameSt) (hcount : s.timerInterval = false) :
    tickStep s = s := by
  rw [tickStep, if_neg (by simp [hcount])]

lemma roundEndSignals_stopped (w h : ℚ) (n : ℕ) (s : GameSt)
    (hcount : s.timerInterval = false) :
    roundEndSignals w h s (List.replicate n GEvent.tick) = 0 := by
  induction n with
  | zero => rfl
  | succ n ih =>
    rw [List.replicate_succ]
    simp only [roundEndSignals, step, tickStep_no_interval s hcount, ih,
      signalsRoundEnd, hcount]
    simp

lemma setGameState_playing_fields (s : GameSt)
    (hs : s.gameState ≠ GState.playing) :
    (setGameState s GState.playing).timerInterval = true ∧
      (setGameState s GState.playing).gameState = GState.playing ∧
      (setGameState s GState.playing).timeLeft = GAME_DURATION ∧
      (setGameState s GState.playing).score = 0 := by
  rw [setGameState, if_neg (fun hcount => hs hcount.symm), if_pos rfl]
  simp [armRound, stopGame, showNextIcon, scheduleBonusIcons]

lemma roundEndSignals_countdown (w h : ℚ) (n : ℕ) :
    ∀ s : GameSt, s.timerInterval = true → s.gameState = GState.playing →
      1 ≤ s.timeLeft →
      roundEndSignals w h s (List.replicate n GEvent.tick) =
        if s.timeLeft ≤ (n : ℤ) then 1 else 0 := by
  induction n with
  | zero =>
    intro s h1 h2 h3
    rw [List.replicate_zero]
    rw [show roundEndSignals w h s [] = 0 from rfl, if_neg (by push_cast; omega)]
  | succ n ih =>
    intro s h1 h2 h3
    rw [List.replicate_succ]
    by_cases hle : s.timeLeft ≤ 1
    · have hsig : signalsRoundEnd s GEvent.tick = true := by
        simp [signalsRoundEnd, h1, h2, hle]
      have hstop : (step w h s GEvent.tick).timerInterval = false := by
        simp [step, tickStep, h1, hle, setGameState, h2, stopGame]
      simp only [roundEndSignals, hsig, if_true]
      rw [roundEndSignals_stopped w h n _ hstop,
        if_pos (show s.timeLeft ≤ ((n + 1 : ℕ) : ℤ) by push_cast; omega)]
    · have hsig : signalsRoundEnd s GEvent.tick = false := by
        simp [signalsRoundEnd, hle]
      have hstep : step w h s GEvent.tick = { s with timeLeft := s.timeLeft - 1 } := by
        simp [step, tickStep, h1, hle]
      simp only [roundEndSignals, hsig, if_false]
      rw [hstep, ih { s with timeLeft := s.timeLeft - 1 } h1 h2
        (show (1:ℤ) ≤ s.timeLeft - 1 by omega)]
      have hiff : ({ s with timeLeft := s.timeLeft - 1 } : GameSt).timeLeft ≤ (n : ℤ)
          ↔ s.timeLeft ≤ ((n + 1 : ℕ) : ℤ) := by
        show s.timeLeft - 1 ≤ (n : ℤ) ↔ _
        push_cast
        omega
      simp [hiff]

/-- Claim C4: the round timer decrements `timeLeft` by exactly one per
tick; on the tick where the decrement would take the value to or below 0
it clamps the value to 0, transitions to `'gameOver'` and disarms
everything; and over a full round — armed from any non-playing state,
then ticked `n` times — the round-end signal fires exactly once when
`n` reaches the configured duration, and never twice. -/
theorem round_timer_countdown (w h : ℚ) (s t u : GameSt) (n : ℕ)
    (hs : s.gameState ≠ GState.playing)
    (ht1 : t.timerInterval = true) (ht2 : 1 < t.timeLeft)
    (hu1 : u.timerInterval = true) (hu2 : u.gameState = GState.playing)
    (hu3 : u.timeLeft ≤ 1) :
    tickStep t = { t with timeLeft := t.timeLeft - 1 } ∧
      tickStep u = stopGame { u with gameState := GState.gameOver, timeLeft := 0 } ∧
      roundEndSignals w h (setGameState s GState.playing)
          (List.replicate n GEvent.tick) =
        if GAME_DURATION.toNat ≤ n then 1 else 0 := by
  refine ⟨?_, ?_, ?_⟩
  · rw [tickStep, if_pos ht1, if_neg (by omega)]
  · rw [tickStep, if_pos hu1, if_pos hu3]
    simp [setGameState, hu2, stopGame]
  · obtain ⟨f1, f2, f3, _⟩ := setGameState_playing_fields s hs
    rw [roundEndSignals_countdown w h n _ f1 f2 (by rw [f3]; decide), f3]
    have hiff : (GAME_DURATION ≤ (n : ℤ)) ↔ GAME_DURATION.toNat ≤ n := by
      rw [GAME_DURATION]
      omega
    rw [if_congr hiff rfl rfl]

/-- Witness for claim C4: a 30-tick round from the initial state, one
mid-round tick, and the final tick. -/
theorem round_timer_countdown_wit :
    tickStep playingState = { playingState with timeLeft := playingState.timeLeft - 1 } ∧
      tickStep { playingState with timeLeft := 1 } =
        stopGame { { playingState with timeLeft := 1 } with
          gameState := GState.gameOver, timeLeft := 0 } ∧
      roundEndSignals 400 400 (setGameState initialGameSt GState.playing)
          (List.replicate 30 GEvent.tick) =
        if GAME_DURATION.toNat ≤ 30 then 1 else 0 :=
  round_timer_countdown 400 400 initialGameSt playingState
    { playingState with timeLeft := 1 } 30
    (by decide) (by decide) (by decide) (by decide) (by decide) (by decide)

/-- All timer lineages of the game loop are cleared. -/
def timersCleared (s : GameSt) : Prop :=
  s.timerInterval = false ∧ s.gameLoopTimeout = false ∧ s.iconTimeout = false ∧
    s.bonusIconTimeout = false ∧ s.bonusScheduleCount = 0

lemma pendingTimerCount_eq_zero_iff (s : GameSt) :
    pendingTimerCount s = 0 ↔ timersCleared s := by
  rcases s with ⟨g, sc, tl, it, il, iv, bt, bl, bv, ti, gl, ic, bi, bc⟩
  cases ti <;> cases gl <;> cases ic <;> cases bi <;>
    simp [pendingTimerCount, timersCleared]

/-- Claim C3: whenever a step takes the game out of the playing state
(into round-over or any other non-playing state), the set of outstanding
timers across the spawn scheduler, bonus scheduler and round timer is
empty immediately afterwards; and in a non-playing state with no
outstanding timers, every timer-callback event is a no-op, so no
callback belonging to a round runs after that round has ended. -/
theorem leaving_playing_clears_timers (w h : ℚ) (s t : GameSt) (e f : GEvent)
    (hplay : s.gameState = GState.playing)
    (hout : (step w h s e).gameState ≠ GState.playing)
    (ht : pendingTimerCount t = 0) (_htg : t.gameState ≠ GState.playing)
    (hf : isTimerFire f = true) :
    pendingTimerCount (step w h s e) = 0 ∧ step w h t f = t := by
  constructor
  · cases e with
    | startPlaying => simp [step, setGameState, hplay] at hout
    | signOut => simp [step, setGameState, hplay, pendingTimerCount_stopGame]
    | tick =>
      simp only [step, tickStep] at hout ⊢
      split_ifs at hout ⊢ with hA hB
      · simp [setGameState, hplay, pendingTimerCount_stopGame]
      · simp [hplay] at hout
      · exact absurd hplay hout
    | spawnFire r1 r2 =>
      simp only [step, spawnFireStep] at hout
      split_ifs at hout <;> simp [hplay] at hout
    | iconTimeoutFire =>
      simp only [step, iconTimeoutFireStep] at hout
      split_ifs at hout <;> simp [showNextIcon, hplay] at hout
    | iconClick =>
      simp only [step, handleIconClick] at hout
      split_ifs at hout <;> simp [showNextIcon, hplay] at hout
    | bonusSpawnFire r1 r2 =>
      simp only [step, bonusSpawnFireStep] at hout
      split_ifs at hout <;> simp [hplay] at hout
    | bonusTimeoutFire =>
      simp only [step, bonusTimeoutFireStep] at hout
      split_ifs at hout <;> simp [hplay] at hout
    | bonusClick =>
      simp only [step, handleBonusIconClick] at hout
      split_ifs at hout <;> simp [hplay] at hout
  · obtain ⟨c1, c2, c3, c4, c5⟩ := (pendingTimerCount_eq_zero_iff t).mp ht
    cases f with
    | startPlaying => simp [isTimerFire] at hf
    | signOut => simp [isTimerFire] at hf
    | tick => simp [step, tickStep_no_interval t c1]
    | spawnFire r1 r2 => simp [step, spawnFireStep, c2]
    | iconTimeoutFire => simp [step, iconTimeoutFireStep, c3]
    | iconClick => simp [isTimerFire] at hf
    | bonusSpawnFire r1 r2 => simp [step, bonusSpawnFireStep, c5]
    | bonusTimeoutFire => simp [step, bonusTimeoutFireStep, c4]
    | bonusClick => simp [isTimerFire] at hf

/-- Witness for claim C3: signing out mid-round clears every timer, and a
stray tick in the quiescent initial state does nothing. -/
theorem leaving_playing_clears_timers_wit :
    pendingTimerCount (step 400 400 playingState GEvent.signOut) = 0 ∧
      step 400 400 initialGameSt GEvent.tick = initialGameSt :=
  leaving_playing_clears_timers 400 400 playingState initialGameSt
    GEvent.signOut GEvent.tick
    (by decide) (by decide) (by decide) (by decide) rfl

lemma score_step (w h : ℚ) (s : GameSt) (e : GEvent)
    (he : e ≠ GEvent.startPlaying) :
    (step w h s e).score =
      s.score + (if acceptsPrimary s e then 1 else 0) +
        (if acceptsBonus s e then BONUS_POINTS else 0) := by
  cases e with
  | startPlaying => exact absurd rfl he
  | signOut =>
    simp only [step, setGameState, acceptsPrimary, acceptsBonus]
    split_ifs <;> simp_all [stopGame, armRound, showNextIcon, scheduleBonusIcons]
  | tick =>
    simp only [step, tickStep, setGameState, acceptsPrimary, acceptsBonus]
    split_ifs <;> simp_all [stopGame, armRound, showNextIcon, scheduleBonusIcons]
  | spawnFire r1 r2 =>
    simp only [step, spawnFireStep, acceptsPrimary, acceptsBonus]
    split_ifs <;> simp_all
  | iconTimeoutFire =>
    simp only [step, iconTimeoutFireStep, acceptsPrimary, acceptsBonus]
    split_ifs <;> simp_all [showNextIcon]
  | iconClick =>
    simp only [step, handleIconClick, acceptsPrimary, acceptsBonus]
    split_ifs <;> simp_all [showNextIcon]
  | bonusSpawnFire r1 r2 =>
    simp only [step, bonusSpawnFireStep, acceptsPrimary, acceptsBonus]
    split_ifs <;> simp_all
  | bonusTimeoutFire =>
    simp only [step, bonusTimeoutFireStep, acceptsPrimary, acceptsBonus]
    split_ifs <;> simp_all
  | bonusClick =>
    simp only [step, handleBonusIconClick, acceptsPrimary, acceptsBonus]
    split_ifs <;> simp_all

lemma score_run (w h : ℚ) (es : List GEvent) :
    ∀ s : GameSt, (∀ e ∈ es, e ≠ GEvent.startPlaying) →
      (run w h s es).score =
        s.score + (primaryTaps w h s es : ℤ) +
          BONUS_POINTS * (bonusTaps w h s es : ℤ) := by
  induction es with
  | nil =>
    intro s _
    simp [run, primaryTaps, bonusTaps]
  | cons e es ih =>
    intro s hes
    have he : e ≠ GEvent.startPlaying := hes e (List.mem_cons_self e es)
    have hrec := ih (step w h s e) (fun x hx => hes x (List.mem_cons_of_mem e hx))
    simp only [run] at hrec ⊢
    rw [List.foldl_cons, hrec, score_step w h s e he]
    simp only [primaryTaps, bonusTaps]
    split_ifs <;> push_cast <;> ring

/-- Claim C2: in any round — armed from a non-playing state, then driven
by any round events — the score equals the number of accepted primary
taps times 1 plus the number of accepted bonus taps times
`BONUS_POINTS` (5), at every point including the transition into
round-over; it is never negative; and no step of the round ever
decrements it. -/
theorem score_accounting (w h : ℚ) (s t : GameSt) (es : List GEvent) (e : GEvent)
    (hs : s.gameState ≠ GState.playing)
    (hes : ∀ x ∈ es, x ≠ GEvent.startPlaying)
    (he : e ≠ GEvent.startPlaying) :
    (run w h (setGameState s GState.playing) es).score =
        (primaryTaps w h (setGameState s GState.playing) es : ℤ) * 1 +
          (bonusTaps w h (setGameState s GState.playing) es : ℤ) * BONUS_POINTS ∧
      0 ≤ (run w h (setGameState s GState.playing) es).score ∧
      t.score ≤ (step w h t e).score := by
  obtain ⟨_, _, _, f4⟩ := setGameState_playing_fields s hs
  have hmain := score_run w h es (setGameState s GState.playing) hes
  rw [f4] at hmain
  refine ⟨by rw [hmain]; ring, ?_, ?_⟩
  · rw [hmain, BONUS_POINTS]
    have hp : (0:ℤ) ≤ (primaryTaps w h (setGameState s GState.playing) es : ℤ) :=
      Int.natCast_nonneg _
    have hb : (0:ℤ) ≤ (bonusTaps w h (setGameState s GState.playing) es : ℤ) :=
      Int.natCast_nonneg _
    linarith
  · rw [score_step w h t e he, BONUS_POINTS]
    split_ifs <;> omega

/-- Witness for claim C2: a round with one accepted primary tap followed
by a tick, and a single tick step never decrementing the score. -/
theorem score_accounting_wit :
    (run 400 400 (setGameState initialGameSt GState.playing)
          [GEvent.spawnFire 0 0, GEvent.iconClick, GEvent.tick]).score =
        (primaryTaps 400 400 (setGameState initialGameSt GState.playing)
            [GEvent.spawnFire 0 0, GEvent.iconClick, GEvent.tick] : ℤ) * 1 +
          (bonusTaps 400 400 (setGameState initialGameSt GState.playing)
              [GEvent.spawnFire 0 0, GEvent.iconClick, GEvent.tick] : ℤ) *
            BONUS_POINTS ∧
      0 ≤ (run 400 400 (setGameState initialGameSt GState.playing)
          [GEvent.spawnFire 0 0, GEvent.iconClick, GEvent.tick]).score ∧
      initialGameSt.score ≤ (step 400 400 initialGameSt GEvent.tick).score :=
  score_accounting 400 400 initialGameSt initialGameSt
    [GEvent.spawnFire 0 0, GEvent.iconClick, GEvent.tick] GEvent.tick
    (by decide) (by decide) (by decide)

lemma recordRoundResult_bestScore (p : UserProfile) (x : ℤ) :
    (recordRoundResult p x).bestScore = max p.bestScore x := by
  rw [recordRoundResult]
  split_ifs with hgt <;> dsimp <;> omega

lemma recordRoundResult_scores (p : UserProfile) (x : ℤ) :
    (recordRoundResult p x).scores = unionAppend p.scores x := by
  rw [recordRoundResult, unionAppend]
  split_ifs with hgt <;> rfl

lemma recordAll_bestScore (ss : List ℤ) :
    ∀ p : UserProfile, (recordAll p ss).bestScore = ss.foldl max p.bestScore := by
  induction ss with
  | nil => intro p; rfl
  | cons x ss ih =>
    intro p
    show (recordAll (recordRoundResult p x) ss).bestScore = _
    rw [ih, List.foldl_cons, recordRoundResult_bestScore]

lemma recordAll_scores (ss : List ℤ) :
    ∀ p : UserProfile, (recordAll p ss).scores = ss.foldl unionAppend p.scores := by
  induction ss with
  | nil => intro p; rfl
  | cons x ss ih =>
    intro p
    show (recordAll (recordRoundResult p x) ss).scores = _
    rw [ih, List.foldl_cons, recordRoundResult_scores]

lemma le_foldl_max_init (ss : List ℤ) : ∀ b : ℤ, b ≤ ss.foldl max b := by
  induction ss with
  | nil => intro b; exact le_refl b
  | cons a ss ih =>
    intro b
    exact le_trans (le_max_left b a) (ih (max b a))

lemma le_foldl_max_of_mem (ss : List ℤ) :
    ∀ (b x : ℤ), x ∈ ss → x ≤ ss.foldl max b := by
  induction ss with
  | nil => intro b x hx; cases hx
  | cons a ss ih =>
    intro b x hx
    rw [List.foldl_cons]
    rcases List.mem_cons.mp hx with rfl | hx
    · exact le_trans (le_max_right b x) (le_foldl_max_init ss (max b x))
    · exact ih (max b a) x hx

lemma foldl_max_mem_or_eq (ss : List ℤ) :
    ∀ b : ℤ, ss.foldl max b ∈ ss ∨ ss.foldl max b = b := by
  induction ss with
  | nil => intro b; exact Or.inr rfl
  | cons a ss ih =>
    intro b
    rw [List.foldl_cons]
    rcases ih (max b a) with hmem | heq
    · exact Or.inl (List.mem_cons_of_mem a hmem)
    · rcases le_total b a with hba | hab
      · rw [heq, max_eq_right hba]
        exact Or.inl (List.mem_cons_self a ss)
      · rw [heq, max_eq_left hab]
        exact Or.inr rfl

lemma foldl_unionAppend_suffix (ss : List ℤ) :
    ∀ acc : List ℤ, ∃ t, ss.foldl unionAppend acc = acc ++ t ∧ t.Sublist ss := by
  induction ss with
  | nil => intro acc; exact ⟨[], by simp, List.nil_sublist []⟩
  | cons x ss ih =>
    intro acc
    rw [List.foldl_cons, unionAppend]
    split_ifs with hmem
    · obtain ⟨t, ht1, ht2⟩ := ih acc
      exact ⟨t, ht1, ht2.cons x⟩
    · obtain ⟨t, ht1, ht2⟩ := ih (acc ++ [x])
      refine ⟨x :: t, ?_, ht2.cons₂ x⟩
      rw [ht1, List.append_assoc, List.singleton_append]

lemma foldl_unionAppend_nodup (ss : List ℤ) :
    ∀ acc : List ℤ, acc.Nodup → (ss.foldl unionAppend acc).Nodup := by
  induction ss with
  | nil => intro acc hacc; exact hacc
  | cons x ss ih =>
    intro acc hacc
    rw [List.foldl_cons, unionAppend]
    split_ifs with hmem
    · exact ih acc hacc
    · exact ih (acc ++ [x]) (by simp [List.nodup_append, hacc, hmem])

lemma mem_foldl_unionAppend (ss : List ℤ) :
    ∀ (acc : List ℤ) (x : ℤ), x ∈ acc ∨ x ∈ ss → x ∈ ss.foldl unionAppend acc := by
  induction ss with
  | nil =>
    intro acc x hx
    rcases hx with hx | hx
    · exact hx
    · cases hx
  | cons a ss ih =>
    intro acc x hx
    rw [List.foldl_cons, unionAppend]
    split_ifs with hmem
    · apply ih
      rcases hx with hx | hx
      · exact Or.inl hx
      · rcases List.mem_cons.mp hx with rfl | hx
        · exact Or.inl hmem
        · exact Or.inr hx
    · apply ih
      rcases hx with hx | hx
      · exact Or.inl (List.mem_append_left _ hx)
      · rcases List.mem_cons.mp hx with rfl | hx
        · exact Or.inl (List.mem_append_right _ (List.mem_singleton_self x))
        · exact Or.inr hx

/-- Counterexample to claim C1 as stated: two rounds that both score 1.
`arrayUnion` refuses the duplicate value, so the stored history is `[1]`,
not the ordered sequence `[1, 1]`, even though the best score is
correct. -/
theorem recordRoundResult_history_cex :
    ¬ ((recordAll (initialProfile "ann" "ann@mail.test") [1, 1]).bestScore = 1 ∧
        (recordAll (initialProfile "ann" "ann@mail.test") [1, 1]).scores = [1, 1]) := by
  decide

/-- Claim C1 (amended): for every nonempty sequence of non-negative round
scores recorded by `saveScore` against a fresh profile (best score 0,
empty history), the stored best score is the maximum of the sequence — it
is a member every element is bounded by — and the stored history is the
sequence with later duplicate values dropped (`arrayUnion` appends a
value only when not already present): exactly the distinct values in
first-occurrence order, a duplicate-free subsequence of the input
containing every recorded value. -/
theorem recordRoundResult_fold (name mail : String) (ss : List ℤ) (x : ℤ)
    (hne : ss ≠ []) (hpos : ∀ y ∈ ss, 0 ≤ y) (hx : x ∈ ss) :
    (recordAll (initialProfile name mail) ss).bestScore ∈ ss ∧
      x ≤ (recordAll (initialProfile name mail) ss).bestScore ∧
      (recordAll (initialProfile name mail) ss).scores = firstOccurrences ss ∧
      (recordAll (initialProfile name mail) ss).scores.Sublist ss ∧
      (recordAll (initialProfile name mail) ss).scores.Nodup ∧
      x ∈ (recordAll (initialProfile name mail) ss).scores := by
  have hbest : (recordAll (initialProfile name mail) ss).bestScore =
      ss.foldl max 0 := recordAll_bestScore ss (initialProfile name mail)
  have hsc : (recordAll (initialProfile name mail) ss).scores =
      firstOccurrences ss := recordAll_scores ss (initialProfile name mail)
  have hmax_mem : ss.foldl max 0 ∈ ss := by
    rcases foldl_max_mem_or_eq ss 0 with hmem | heq
    · exact hmem
    · rcases ss with _ | ⟨a, ss⟩
      · exact absurd rfl hne
      · have h1 : a ≤ (a :: ss).foldl max 0 :=
          le_foldl_max_of_mem _ 0 a (List.mem_cons_self a ss)
        rw [heq] at h1
        have h2 : 0 ≤ a := hpos a (List.mem_cons_self a ss)
        rw [heq, ← le_antisymm h1 h2]
        exact List.mem_cons_self a ss
  obtain ⟨t, ht1, ht2⟩ := foldl_unionAppend_suffix ss []
  refine ⟨hbest ▸ hmax_mem, hbest ▸ le_foldl_max_of_mem ss 0 x hx, hsc, ?_, ?_, ?_⟩
  · rw [hsc, firstOccurrences, ht1]
    simpa using ht2
  · rw [hsc, firstOccurrences]
    exact foldl_unionAppend_nodup ss [] List.nodup_nil
  · rw [hsc, firstOccurrences]
    exact mem_foldl_unionAppend ss [] x (Or.inr hx)

/-- Witness for claim C1 (amended) at the score sequence 3, 7, 3. -/
theorem recordRoundResult_fold_wit :
    (recordAll (initialProfile "ann" "ann@mail.test") [3, 7, 3]).bestScore ∈
        [(3:ℤ), 7, 3] ∧
      (7:ℤ) ≤ (recordAll (initialProfile "ann" "ann@mail.test") [3, 7, 3]).bestScore ∧
      (recordAll (initialProfile "ann" "ann@mail.test") [3, 7, 3]).scores =
        firstOccurrences [3, 7, 3] ∧
      (recordAll (initialProfile "ann" "ann@mail.test") [3, 7, 3]).scores.Sublist
        [(3:ℤ), 7, 3] ∧
      (recordAll (initialProfile "ann" "ann@mail.test") [3, 7, 3]).scores.Nodup ∧
      (7:ℤ) ∈ (recordAll (initialProfile "ann" "ann@mail.test") [3, 7, 3]).scores :=
  recordRoundResult_fold "ann" "ann@mail.test" [3, 7, 3] 7
    (by decide) (by decide) (by decide)

end PrimalTap
